import Mathlib

/-!
Verification development for the `Resample` spatial preprocessing transform
(`torchio/transforms/preprocessing/spatial/resample.py`).

The transform's own code (`parse_target`, `parse_spacing`, `check_affine`,
`check_affine_key_presence`, `apply_transform`, `get_reference_image`) is
embedded shallowly below.  Collaborators that live outside the file
(`Subject`, `Image.as_sitk`, `sitk_to_nib`, SimpleITK's resampler and the
index-to-physical-point mapping, the file system consulted by
`Path(target).is_file()`) are modelled from the specification as explicit
parameters or symbolic data, as noted on each definition.

Machine floats are modelled by exact rationals; the `astype(np.uint16)`
narrowing cast is modelled by reduction modulo 2^16 of the (non-negative)
ceiling value, which is the observable wrap-around behaviour the spec
describes for that cast.
-/

/-- A 4×4 rational matrix, modelling a 4×4 `numpy` affine array. -/
abbrev Mat4 := Matrix (Fin 4) (Fin 4) ℚ

/-- A Python dictionary key as used for the `pre_affine_name` argument:
either a string or a value of some other type (an `int` here stands for
any non-string key, which Python dictionaries accept). -/
inductive PyKey where
  | pstr (s : String)
  | pint (n : ℤ)
deriving DecidableEq

/-- Python's `type(...)` name of a `PyKey`, used in error messages. -/
def PyKey.tyName : PyKey → String
  | .pstr _ => "str"
  | .pint _ => "int"

/-- Whether a `PyKey` is a Python `str` (`isinstance(affine_name, str)`). -/
def PyKey.isStr : PyKey → Bool
  | .pstr _ => true
  | .pint _ => false

/-- A value stored in an image dictionary under an affine-correction key:
a NumPy array or a torch tensor (carrying its 4×4 matrix when its shape is
`(4, 4)`, or just its shape otherwise), or a value of some other type. -/
inductive AffValue where
  | ndarray (m : Mat4)
  | ndarrayOfShape (shape : List ℕ)
  | tensor (m : Mat4)
  | tensorOfShape (shape : List ℕ)
  | other (tyName : String)

/-- The 4×4 matrix carried by a valid `AffValue` (after `check_affine`
succeeded the value is a well-shaped array or tensor; the torch→numpy
conversion in the source is the identity on the matrix entries). -/
def AffValue.matrix : AffValue → Mat4
  | .ndarray m => m
  | .tensor m => m
  | _ => 0

/-- Modelled from the spec: a `torchio.Image`, i.e. a Volume of the bundle.
`pid` is the Python object identity (used by the `image is reference`
check), `data` an abstract voxel-array identifier, `affine` the stored 4×4
affine, `isScalar` whether the image is a `ScalarImage` (continuous kind),
`keys` the image dictionary's auxiliary entries, and `spacing` the value of
the `Image.spacing` property. -/
structure Image where
  pid : ℕ
  data : ℕ
  affine : Mat4
  isScalar : Bool
  keys : List (PyKey × AffValue)
  spacing : List ℚ

/-- Python `name in image`: membership of a key in the image dictionary. -/
def Image.hasKey (img : Image) (k : PyKey) : Bool :=
  (img.keys.lookup k).isSome

/-- Modelled from the spec: a `Subject` bundle, an ordered dictionary of
named images (`list_images` / `get_image(key)` collaborator). -/
abbrev Subject := List (String × Image)

/-- A SimpleITK image: grid size, spacing, origin, direction matrix (rows),
pixel type identifier and components per pixel. -/
structure SitkImage where
  size : List ℕ
  spacing : List ℚ
  origin : List ℚ
  direction : List (List ℚ)
  pixelID : ℕ
  componentsPerPixel : ℕ
deriving DecidableEq

/-- `GetDimension()` of a SimpleITK image. -/
def SitkImage.dimension (s : SitkImage) : ℕ := s.size.length

/-- Modelled from the spec: SimpleITK's
`TransformContinuousIndexToPhysicalPoint`, the index-to-world mapping
`x = origin + direction · diag(spacing) · index`. -/
def transformContinuousIndexToPhysicalPoint
    (img : SitkImage) (index : List ℚ) : List ℚ :=
  List.zipWith
    (fun (o : ℚ) (row : List ℚ) =>
      o + (List.zipWith (fun (d : ℚ) (sx : ℚ) => d * sx) row
            (List.zipWith (fun (s x : ℚ) => s * x) img.spacing index)).sum)
    img.origin img.direction

/-- Errors raised by the transform, one constructor per `raise` site
(`ValueError`, `TypeError`, `AssertionError`) plus the
`UnboundLocalError` that `apply_transform` hits when
`reference_image_sitk` was assigned on no branch. -/
inductive ResampleError where
  | invalidSpacingType (tyName : String)
  | spacingNotPositive
  | affineNameNotString (tyName : String)
  | affineMatrixBadType (tyName : String)
  | affineMatrixBadShape (shape : List ℕ)
  | affineKeyNotFound (name : PyKey)
  | referenceNotFound (name : String)
  | dimensionMismatch (dimRef dimFlo : ℕ)
  | unboundLocalReference
deriving DecidableEq

/-- The spacing argument as received by `parse_spacing`: a Python number,
a tuple of numbers, or a value of some other type (named by its type). -/
inductive SpacingInput where
  | num (n : ℚ)
  | tup (xs : List ℚ)
  | other (tyName : String)

/-- The elements `np.array(spacing)` iterates over for the positivity
check (the original input, before broadcasting). -/
def SpacingInput.elems : SpacingInput → List ℚ
  | .num n => [n]
  | .tup xs => xs
  | .other _ => []

/-- `Resample.parse_spacing` (source lines 101–115): a 3-tuple passes
through, a number broadcasts to a triple, anything else raises the type
`ValueError`; then any non-positive component of the original input raises
the positivity `ValueError`. -/
def parse_spacing (spacing : SpacingInput) : Except ResampleError (List ℚ) :=
  match (match spacing with
    | .tup xs =>
        if xs.length = 3 then Except.ok xs
        else Except.error (ResampleError.invalidSpacingType "tuple")
    | .num n => Except.ok [n, n, n]
    | .other t => Except.error (ResampleError.invalidSpacingType t)) with
  | .error e => .error e
  | .ok result =>
      if ∃ q ∈ spacing.elems, q ≤ 0 then
        .error ResampleError.spacingNotPositive
      else .ok result

/-- The `target` argument of the constructor.  The `isFile` flag records
the file-system fact `Path(target).is_file()`, an external collaborator. -/
inductive TargetInput where
  | strT (s : String) (isFile : Bool)
  | pathT (s : String) (isFile : Bool)
  | imageT (img : Image)
  | spacingT (sp : SpacingInput)

/-- The `reference_image` attribute left by `parse_target`: a loaded or
given `Image`, the original `str`, the original `Path` object (which is
not a `str`), or `None`. -/
inductive RefVal where
  | image (img : Image)
  | str (s : String)
  | pathRef (s : String)
  | noneRef

/-- `Resample.parse_target` (source lines 77–99).  `load` models the
`ScalarImage(path)` constructor (external volume loader); a loaded
reference is a `ScalarImage`, hence continuous.  Note that a `Path` that
is not an existing file is stored as the `Path` object itself, not as a
string. -/
def parse_target (load : String → Image) :
    TargetInput → Except ResampleError (RefVal × Option (List ℚ))
  | .strT s isFile =>
      if isFile then .ok (.image { load s with isScalar := true }, none)
      else .ok (.str s, none)
  | .pathT s isFile =>
      if isFile then .ok (.image { load s with isScalar := true }, none)
      else .ok (.pathRef s, none)
  | .imageT img => .ok (.image img, some img.spacing)
  | .spacingT sp =>
      match parse_spacing sp with
      | .error e => .error e
      | .ok result => .ok (.noneRef, some result)

/-- `Resample.check_affine` (source lines 117–138): the key must be a
string, and when the key is present in the image dictionary its value must
be a NumPy array or torch tensor of shape `(4, 4)`. -/
def check_affine (affine_name : PyKey) (image : Image) :
    Except ResampleError Unit :=
  if ¬affine_name.isStr then
    .error (ResampleError.affineNameNotString affine_name.tyName)
  else
    match image.keys.lookup affine_name with
    | none => .ok ()
    | some v =>
        match v with
        | .ndarray _ => .ok ()
        | .tensor _ => .ok ()
        | .ndarrayOfShape sh => .error (ResampleError.affineMatrixBadShape sh)
        | .tensorOfShape sh => .error (ResampleError.affineMatrixBadShape sh)
        | .other t => .error (ResampleError.affineMatrixBadType t)

/-- `Resample.check_affine_key_presence` (source lines 140–149): succeed
as soon as one image of the subject carries the key, otherwise raise the
`ValueError` naming the key. -/
def check_affine_key_presence (affine_name : PyKey) (subject : Subject) :
    Except ResampleError Unit :=
  if subject.any (fun p => p.2.hasKey affine_name) then .ok ()
  else .error (ResampleError.affineKeyNotFound affine_name)

/-- `Resample.get_reference_image` (source lines 212–234):
`new_size = ceil(old_size * old_spacing / new_spacing)` cast with
`astype(np.uint16)` (modelled as reduction mod 2^16 of the ceiling),
singleton axes forced back to size 1, origin shifted by the continuous
index `0.5 * (new_spacing / old_spacing - 1)` mapped to physical space,
direction and pixel type preserved. -/
def get_reference_image (image : SitkImage) (spacing : List ℚ) : SitkImage :=
  let old_spacing := image.spacing
  let new_spacing := spacing
  let old_size := image.size
  let new_size_q :=
    List.zipWith (fun (a : ℚ) (b : ℚ) => a / b)
      (List.zipWith (fun (n : ℕ) (r : ℚ) => (n : ℚ) * r) old_size old_spacing)
      new_spacing
  let new_size_u16 := new_size_q.map (fun q => (Int.ceil q).toNat % 65536)
  let new_size :=
    List.zipWith (fun (o : ℕ) (n : ℕ) => if o = 1 then 1 else n)
      old_size new_size_u16
  let new_origin_index :=
    List.zipWith (fun (ns os : ℚ) => (ns / os - 1) / 2) new_spacing old_spacing
  let new_origin_lps := transformContinuousIndexToPhysicalPoint image new_origin_index
  { size := new_size
    spacing := new_spacing
    origin := new_origin_lps
    direction := image.direction
    pixelID := image.pixelID
    componentsPerPixel := image.componentsPerPixel }

/-- Modelled from the spec: the external capabilities `apply_transform`
invokes — `Image.as_sitk(force_3d)` (volume to SimpleITK image),
`ResampleImageFilter.Execute` keyed by reference image, floating image and
interpolation name (a deterministic pure kernel), and `sitk_to_nib`
(resampled SimpleITK image back to a voxel array and an affine). -/
structure Externals where
  asSitk : Image → Bool → SitkImage
  execute : SitkImage → SitkImage → String → SitkImage
  sitkToNib : SitkImage → ℕ × Mat4

/-- The `Resample` transform's state after `__init__`: the resolved
`reference_image` and `target_spacing` from `parse_target`, plus the
remaining constructor arguments. -/
structure Resample where
  reference_image : RefVal
  target_spacing : Option (List ℚ)
  image_interpolation : String
  pre_affine_name : Option PyKey
  scalars_only : Bool

/-- `Resample.__init__` (source lines 55–75): resolve the target once via
`parse_target` and store the remaining arguments. -/
def Resample.init (load : String → Image) (target : TargetInput)
    (image_interpolation : String) (pre_affine_name : Option PyKey)
    (scalars_only : Bool) : Except ResampleError Resample :=
  match parse_target load target with
  | .error e => .error e
  | .ok (ref, sp) =>
      .ok { reference_image := ref
            target_spacing := sp
            image_interpolation := image_interpolation
            pre_affine_name := pre_affine_name
            scalars_only := scalars_only }

/-- Python's `image is self.reference_image` (source line 157): object
identity, which can only hold when the stored reference is itself an
`Image` object. -/
def isTheReference : RefVal → Image → Bool
  | .image ref, img => ref.pid == img.pid
  | _, _ => false

/-- The pre-resample affine correction block (source lines 169–175): when
a key is configured and present in this image, validate it with
`check_affine` and left-multiply the stored matrix into the image's
affine, mutating the image. -/
def preAffineApply (t : Resample) (image : Image) :
    Except ResampleError Image :=
  match t.pre_affine_name with
  | none => .ok image
  | some name =>
      if image.hasKey name then
        match check_affine name image with
        | .error e => .error e
        | .ok _ =>
            let m := ((image.keys.lookup name).getD (.other "")).matrix
            .ok { image with affine := m * image.affine }
      else .ok image

/-- The reference-resolution branch chain of `apply_transform` (source
lines 180–196): a string reference is looked up in the current subject
(`KeyError` becomes the `ValueError` naming the reference), an `Image`
reference is converted with `force_3d=True`, a `None` reference builds a
grid from the floating image and the target spacing — and any other value
(a `Path` object) matches no branch, leaving `reference_image_sitk`
unbound. -/
def resolveReference (ext : Externals) (t : Resample) (subject : Subject)
    (floating : SitkImage) : Except ResampleError SitkImage :=
  match t.reference_image with
  | .str s =>
      match subject.lookup s with
      | some img => .ok (ext.asSitk img false)
      | none => .error (ResampleError.referenceNotFound s)
  | .image ref => .ok (ext.asSitk ref true)
  | .noneRef => .ok (get_reference_image floating (t.target_spacing.getD []))
  | .pathRef _ => .error ResampleError.unboundLocalReference

/-- The per-image body of `apply_transform` after interpolation has been
chosen (source lines 169–209): apply the optional pre-affine correction
(mutating the subject in place), convert the image with `force_3d=True`,
resolve the reference, check dimensions (`assert`), run the external
resampler and overwrite the image's data and affine.  An error carries the
subject state at raise time, as a Python exception would leave it. -/
def resampleWith (ext : Externals) (t : Resample) (subject : Subject)
    (i : ℕ) (key : String) (image : Image) (interpolation : String) :
    Except (ResampleError × Subject) Subject :=
  match preAffineApply t image with
  | .error e => .error (e, subject)
  | .ok image₁ =>
      let subject₁ := subject.set i (key, image₁)
      let floating := ext.asSitk image₁ true
      match resolveReference ext t subject₁ floating with
      | .error e => .error (e, subject₁)
      | .ok refSitk =>
          if refSitk.dimension ≠ floating.dimension then
            .error (ResampleError.dimensionMismatch refSitk.dimension
              floating.dimension, subject₁)
          else
            let resampled := ext.execute refSitk floating interpolation
            let res := ext.sitkToNib resampled
            .ok (subject₁.set i
              (key, { image₁ with data := res.1, affine := res.2 }))

/-- One iteration of the `for image in self.get_images(subject)` loop
(source lines 155–209) at index `i`: skip the in-memory reference, skip a
non-scalar image under `scalars_only`, force `nearest` interpolation for
non-scalar images, then resample. -/
def applyStep (ext : Externals) (t : Resample) (subject : Subject) (i : ℕ) :
    Except (ResampleError × Subject) Subject :=
  match subject[i]? with
  | none => .ok subject
  | some (key, image) =>
      if isTheReference t.reference_image image then .ok subject
      else if !image.isScalar && t.scalars_only then .ok subject
      else
        let interpolation :=
          if !image.isScalar then "nearest" else t.image_interpolation
        resampleWith ext t subject i key image interpolation

/-- The image loop of `apply_transform`, iterating the subject's images in
order and mutating the subject in place; the fuel is the (invariant)
number of images. -/
def applyLoop (ext : Externals) (t : Resample) :
    ℕ → Subject → ℕ → Except (ResampleError × Subject) Subject
  | 0, subject, _ => .ok subject
  | fuel + 1, subject, i =>
      match applyStep ext t subject i with
      | .error e => .error e
      | .ok subject₁ => applyLoop ext t fuel subject₁ (i + 1)

/-- `Resample.apply_transform` (source lines 151–210): when a pre-affine
key is configured, run the bundle-level presence check first, then process
every image of the subject in order. -/
def apply_transform (ext : Externals) (t : Resample) (subject : Subject) :
    Except (ResampleError × Subject) Subject :=
  match t.pre_affine_name with
  | none => applyLoop ext t subject.length subject 0
  | some name =>
      match check_affine_key_presence name subject with
      | .error e => .error (e, subject)
      | .ok _ => applyLoop ext t subject.length subject 0

/-- The subject state visible after an invocation: the mutated-in-place
bundle a caller observes whether the transform returned normally or
raised (a Python exception leaves the bundle as it was at raise time). -/
def exceptState : Except (ResampleError × Subject) Subject → Subject
  | .ok s => s
  | .error (_, s) => s

/-! ### Concrete instances used by witnesses and counterexamples -/

/-- A concrete geometry whose first axis ceiling is 70000 ≥ 2^16. -/
def c4image : SitkImage :=
  { size := [70000, 10, 10]
    spacing := [1, 1, 1]
    origin := [0, 0, 0]
    direction := [[1, 0, 0], [0, 1, 0], [0, 0, 1]]
    pixelID := 0
    componentsPerPixel := 1 }

/-- A pseudo-2D geometry: one voxel thick on the last axis. -/
def c5image : SitkImage :=
  { size := [10, 10, 1]
    spacing := [1, 1, 1]
    origin := [0, 0, 0]
    direction := [[1, 0, 0], [0, 1, 0], [0, 0, 1]]
    pixelID := 0
    componentsPerPixel := 1 }

/-- A well-formed 3D geometry for the identity round-trip witness. -/
def c10image : SitkImage :=
  { size := [10, 10, 10]
    spacing := [1, 1, 1]
    origin := [0, 0, 0]
    direction := [[1, 0, 0], [0, 1, 0], [0, 0, 1]]
    pixelID := 0
    componentsPerPixel := 1 }

/-- A fixed 3D SimpleITK image used by the sample externals. -/
def sitk0 : SitkImage :=
  { size := [2, 2, 2]
    spacing := [1, 1, 1]
    origin := [0, 0, 0]
    direction := [[1, 0, 0], [0, 1, 0], [0, 0, 1]]
    pixelID := 0
    componentsPerPixel := 1 }

/-- Sample externals: every conversion yields `sitk0`, and the
resampler's output decodes to voxel array 999 with identity affine. -/
def ext0 : Externals :=
  { asSitk := fun _ _ => sitk0
    execute := fun _ _ _ => sitk0
    sitkToNib := fun _ => (999, 1) }

/-- A sample volume loader for `parse_target`. -/
def load0 : String → Image :=
  fun _ =>
    { pid := 100, data := 50, affine := 1, isScalar := true, keys := []
      spacing := [1, 1, 1] }

/-- A scalar image carrying an affine-correction matrix (the zero
matrix) under key `"m"`. -/
def imgA : Image :=
  { pid := 0, data := 7, affine := 1, isScalar := true
    keys := [(.pstr "m", .ndarray 0)], spacing := [1, 1, 1] }

/-- A plain scalar image stored under the key `"t1"` in the samples. -/
def imgT1 : Image :=
  { pid := 1, data := 0, affine := 1, isScalar := true, keys := []
    spacing := [1, 1, 1] }

/-- A second plain scalar image. -/
def imgB : Image :=
  { pid := 2, data := 5, affine := 1, isScalar := true, keys := []
    spacing := [1, 1, 1] }

/-- A categorical (non-scalar) image. -/
def img7 : Image :=
  { pid := 5, data := 3, affine := 1, isScalar := false, keys := []
    spacing := [1, 1, 1] }

/-- A plain image with no auxiliary keys. -/
def img9 : Image :=
  { pid := 3, data := 0, affine := 1, isScalar := true, keys := []
    spacing := [1, 1, 1] }

/-- An image carrying a matrix under the non-string key `5`. -/
def img9k : Image :=
  { pid := 4, data := 0, affine := 1, isScalar := true
    keys := [(.pint 5, .ndarray 1)], spacing := [1, 1, 1] }

/-- An in-memory reference image. -/
def imgR : Image :=
  { pid := 9, data := 11, affine := 1, isScalar := true, keys := []
    spacing := [1, 1, 1] }

/-- One-image subject holding `imgA`. -/
def subjA : Subject := [("a", imgA)]

/-- One-image subject holding the in-memory reference `imgR` itself. -/
def subjR : Subject := [("r", imgR)]

/-- One-image subject holding the categorical `img7`. -/
def subj7 : Subject := [("a", img7)]

/-- One-image subject with no auxiliary keys anywhere. -/
def subj8 : Subject := [("a", imgT1)]

/-- One-image subject with no auxiliary keys, for the non-string key
counterexample. -/
def subj9 : Subject := [("a", img9)]

/-- One-image subject whose image carries the non-string key `5`. -/
def subj9k : Subject := [("a", img9k)]

/-- Two-image subject containing the named reference `"t1"`. -/
def subjT : Subject := [("t1", imgT1), ("b", imgB)]

/-- One-image subject that does not contain the key `"t1"`. -/
def subjNoT : Subject := [("b", imgB)]

/-- Transform targeting the absent named reference `"missing"` with a
pre-affine key `"m"`. -/
def t1cfg : Resample :=
  { reference_image := .str "missing", target_spacing := none
    image_interpolation := "linear", pre_affine_name := some (.pstr "m")
    scalars_only := false }

/-- Transform targeting the named sibling reference `"t1"`. -/
def t2cfg : Resample :=
  { reference_image := .str "t1", target_spacing := none
    image_interpolation := "linear", pre_affine_name := none
    scalars_only := false }

/-- Transform as built from the non-file `Path("t1")` target. -/
def t3pcfg : Resample :=
  { reference_image := .pathRef "t1", target_spacing := none
    image_interpolation := "linear", pre_affine_name := none
    scalars_only := false }

/-- Transform whose target is the in-memory `Image` instance `imgR`. -/
def tRcfg : Resample :=
  { reference_image := .image imgR, target_spacing := some [1, 1, 1]
    image_interpolation := "linear", pre_affine_name := none
    scalars_only := false }

/-- Transform with spacing target and `scalars_only = true`. -/
def t7cfg : Resample :=
  { reference_image := .noneRef, target_spacing := some [1, 1, 1]
    image_interpolation := "linear", pre_affine_name := none
    scalars_only := true }

/-- Transform with a (string) pre-affine key `"aff"` configured. -/
def t8cfg : Resample :=
  { reference_image := .noneRef, target_spacing := some [1, 1, 1]
    image_interpolation := "linear", pre_affine_name := some (.pstr "aff")
    scalars_only := false }

/-- Transform with the non-string pre-affine key `5` configured. -/
def t9cfg : Resample :=
  { reference_image := .noneRef, target_spacing := some [1, 1, 1]
    image_interpolation := "linear", pre_affine_name := some (.pint 5)
    scalars_only := false }

/-! ### Helper lemmas about the grid builder -/

/-- The size list produced by `get_reference_image`, written out. -/
theorem get_reference_image_size_eq (image : SitkImage) (sp : List ℚ) :
    (get_reference_image image sp).size =
      List.zipWith (fun (o n : ℕ) => if o = 1 then 1 else n) image.size
        ((List.zipWith (fun (a b : ℚ) => a / b)
          (List.zipWith (fun (n : ℕ) (r : ℚ) => (n : ℚ) * r)
            image.size image.spacing) sp).map
              (fun q => (Int.ceil q).toNat % 65536)) := rfl

/-- C4: spacing-based grid size is `ceil(old_size * old_spacing /
new_spacing)` cast to 16-bit unsigned integers on every non-singleton
axis, and on a concrete input whose true ceiling is 70000 ≥ 2^16 the
stored size is 4464 = 70000 mod 2^16 instead of the true ceiling. -/
theorem c4_uint16_wrap :
    (∀ (image : SitkImage) (sp : List ℚ) (i n : ℕ) (s r : ℚ),
      image.size[i]? = some n → image.spacing[i]? = some s →
      sp[i]? = some r → n ≠ 1 →
      (get_reference_image image sp).size[i]? =
        some ((Int.ceil ((n : ℚ) * s / r)).toNat % 2 ^ 16)) ∧
    ((get_reference_image c4image [1, 1, 1]).size[0]? = some 4464 ∧
      Int.ceil ((70000 : ℚ) * 1 / 1) = 70000 ∧
      65536 ≤ 70000 ∧ (4464 : ℕ) ≠ 70000 ∧ 4464 = 70000 % 2 ^ 16) := by
  constructor
  · intro image sp i n s r hn hs hr hne
    rw [get_reference_image_size_eq]
    simp [List.getElem?_zipWith', List.getElem?_map, hn, hs, hr, hne]
  · refine ⟨?_, by norm_num, by norm_num, by norm_num, by norm_num⟩
    rw [get_reference_image_size_eq]
    norm_num [c4image]
    decide

/-- C5: a singleton axis of the floating volume stays a singleton axis of
the reference grid, whatever the spacing ratio; and the spec's concrete
example `(10,10,1)` at spacing ratio 2 yields `(5,5,1)`. -/
theorem c5_singleton :
    (∀ (image : SitkImage) (sp : List ℚ) (i : ℕ) (s r : ℚ),
      image.size[i]? = some 1 → image.spacing[i]? = some s →
      sp[i]? = some r →
      (get_reference_image image sp).size[i]? = some 1) ∧
    (get_reference_image c5image [2, 2, 2]).size = [5, 5, 1] := by
  constructor
  · intro image sp i s r hn hs hr
    rw [get_reference_image_size_eq]
    simp [List.getElem?_zipWith', List.getElem?_map, hn, hs, hr]
  · rw [get_reference_image_size_eq]
    norm_num [c5image]
    decide

/-- C6: `parse_spacing` broadcasts a positive number to an isotropic
triple, passes a 3-tuple through unchanged, rejects any other shape with
the type `ValueError`, and rejects a non-positive component of the
original input (scalar or 3-tuple alike) with the positivity
`ValueError`. -/
theorem c6_parse_spacing :
    (∀ n : ℚ, 0 < n → parse_spacing (.num n) = .ok [n, n, n]) ∧
    (∀ n : ℚ, n ≤ 0 →
      parse_spacing (.num n) = .error .spacingNotPositive) ∧
    (∀ xs : List ℚ, xs.length = 3 → (∀ x ∈ xs, 0 < x) →
      parse_spacing (.tup xs) = .ok xs) ∧
    (∀ xs : List ℚ, xs.length = 3 → (∃ x ∈ xs, x ≤ 0) →
      parse_spacing (.tup xs) = .error .spacingNotPositive) ∧
    (∀ xs : List ℚ, xs.length ≠ 3 →
      parse_spacing (.tup xs) = .error (.invalidSpacingType "tuple")) ∧
    (∀ t : String, parse_spacing (.other t) = .error (.invalidSpacingType t)) := by
  refine ⟨?_, ?_, ?_, ?_, ?_, ?_⟩
  · intro n hn
    simp [parse_spacing, SpacingInput.elems, not_le.mpr hn]
  · intro n hn
    simp [parse_spacing, SpacingInput.elems, hn]
  · intro xs hlen hpos
    have : ¬∃ q ∈ xs, q ≤ 0 := by
      rintro ⟨q, hq, hq0⟩
      exact absurd hq0 (not_le.mpr (hpos q hq))
    simp [parse_spacing, SpacingInput.elems, hlen, this]
  · intro xs hlen hex
    simp [parse_spacing, SpacingInput.elems, hlen, hex]
  · intro xs hlen
    simp [parse_spacing, hlen]
  · intro t
    simp [parse_spacing]

/-- Size round trip: at the volume's own (positive) spacing, the size
chain of `get_reference_image` reproduces the old size whenever every
axis size is below 2^16. -/
theorem size_chain_self (ns : List ℕ) (ss : List ℚ)
    (hlen : ns.length = ss.length) (hpos : ∀ s ∈ ss, 0 < s)
    (hlt : ∀ n ∈ ns, n < 65536) :
    List.zipWith (fun (o n : ℕ) => if o = 1 then 1 else n) ns
      ((List.zipWith (fun (a b : ℚ) => a / b)
        (List.zipWith (fun (n : ℕ) (r : ℚ) => (n : ℚ) * r) ns ss) ss).map
          (fun q => (Int.ceil q).toNat % 65536)) = ns := by
  induction ns generalizing ss with
  | nil => simp
  | cons n ns ih =>
    cases ss with
    | nil => simp at hlen
    | cons s ss =>
      have hs : (0 : ℚ) < s := hpos s (by simp)
      have hn : n < 65536 := hlt n (by simp)
      simp only [List.zipWith_cons_cons, List.map_cons]
      rw [mul_div_cancel_right₀ _ (ne_of_gt hs), Int.ceil_natCast,
        Int.toNat_natCast, Nat.mod_eq_of_lt hn]
      have htail := ih ss (by simpa using hlen)
        (fun x hx => hpos x (by simp [hx]))
        (fun x hx => hlt x (by simp [hx]))
      rw [htail]
      by_cases h1 : n = 1 <;> simp [h1]

/-- At identical old and new spacing the continuous-index origin shift
`0.5 * (new / old - 1)` vanishes on every axis. -/
theorem origin_shift_self (ss : List ℚ) (hpos : ∀ s ∈ ss, 0 < s) :
    List.zipWith (fun (ns os : ℚ) => (ns / os - 1) / 2) ss ss =
      List.replicate ss.length 0 := by
  induction ss with
  | nil => simp
  | cons s ss ih =>
    have hs : (0 : ℚ) < s := hpos s (by simp)
    simp only [List.zipWith_cons_cons, List.length_cons, List.replicate_succ]
    rw [div_self (ne_of_gt hs), ih (fun x hx => hpos x (by simp [hx]))]
    norm_num

/-- Scaling a zero index vector by the spacings yields zeros. -/
theorem spacing_mul_zero_index (ss : List ℚ) (k : ℕ) :
    List.zipWith (fun (s x : ℚ) => s * x) ss (List.replicate k 0) =
      List.replicate (min ss.length k) 0 := by
  induction ss generalizing k with
  | nil => simp
  | cons s ss ih =>
    cases k with
    | zero => simp
    | succ k =>
        simp only [List.replicate_succ, List.zipWith_cons_cons, mul_zero,
          List.length_cons, Nat.succ_min_succ]
        rw [ih]

/-- A direction row dotted with a zero vector sums to zero. -/
theorem row_dot_zero (row : List ℚ) (k : ℕ) :
    (List.zipWith (fun (d z : ℚ) => d * z) row (List.replicate k 0)).sum = 0 := by
  induction row generalizing k with
  | nil => simp
  | cons d row ih =>
    cases k with
    | zero => simp
    | succ k =>
        simp only [List.replicate_succ, List.zipWith_cons_cons, mul_zero,
          List.sum_cons, ih, add_zero]

/-- Zipping with a projection to the first list is the identity when the
second list is at least as long. -/
theorem zipWith_keep_fst (os : List ℚ) (dir : List (List ℚ))
    (h : os.length ≤ dir.length) :
    List.zipWith (fun (o : ℚ) (_ : List ℚ) => o) os dir = os := by
  induction os generalizing dir with
  | nil => simp
  | cons o os ih =>
    cases dir with
    | nil => simp at h
    | cons row dir =>
        simp only [List.zipWith_cons_cons]
        rw [ih dir (by simpa using h)]

/-- Mapping the zero continuous index to physical space gives back the
origin, provided the direction matrix has at least as many rows as the
origin has components. -/
theorem transform_zero_index (img : SitkImage) (k : ℕ)
    (hlen : img.origin.length ≤ img.direction.length) :
    transformContinuousIndexToPhysicalPoint img (List.replicate k 0) =
      img.origin := by
  unfold transformContinuousIndexToPhysicalPoint
  rw [spacing_mul_zero_index]
  simp only [row_dot_zero, add_zero]
  exact zipWith_keep_fst _ _ hlen

/-- C10 amended: building the spacing-based reference grid at the
volume's own current spacing reproduces the volume's grid exactly —
provided the size on every axis is below 2^16; above that the `uint16`
cast wraps (see the counterexample). -/
theorem c10_identity_roundtrip (image : SitkImage)
    (hlen : image.size.length = image.spacing.length)
    (hdir : image.origin.length ≤ image.direction.length)
    (hpos : ∀ s ∈ image.spacing, 0 < s)
    (hlt : ∀ n ∈ image.size, n < 65536) :
    get_reference_image image image.spacing = image := by
  obtain ⟨sz, sp, org, dir, pid, cpp⟩ := image
  simp only [get_reference_image]
  rw [origin_shift_self sp hpos]
  rw [size_chain_self sz sp hlen hpos hlt]
  rw [transform_zero_index ⟨sz, sp, org, dir, pid, cpp⟩ sp.length hdir]

/-- C10 witness: the round trip is the identity on a concrete volume. -/
theorem c10_identity_roundtrip_witness :
    get_reference_image c10image c10image.spacing = c10image :=
  c10_identity_roundtrip c10image (by decide) (by decide)
    (by intro s hs; fin_cases hs <;> norm_num) (by decide)

/-- C10 counterexample: as stated for every volume the round trip fails —
on a volume of size 70000 on one axis (positive unit spacings) the
`uint16` cast stores 4464, so the grid size is not reproduced. -/
theorem c10_counterexample :
    (get_reference_image c4image c4image.spacing).size = [4464, 10, 10] ∧
    c4image.size = [70000, 10, 10] ∧
    (∀ s ∈ c4image.spacing, 0 < s) ∧
    [4464, 10, 10] ≠ [70000, 10, 10] := by
  refine ⟨?_, rfl, by intro s hs; fin_cases hs <;> norm_num, by decide⟩
  rw [get_reference_image_size_eq]
  norm_num [c4image]
  decide

/-! ### Helper lemmas about the orchestrator -/

/-- The zero and identity 4×4 matrices differ. -/
theorem mat4_zero_ne_one : (0 : Mat4) ≠ 1 := by
  intro h
  have h1 := congrFun (congrFun h 0) 0
  rw [Matrix.zero_apply, Matrix.one_apply_eq] at h1
  exact zero_ne_one h1

/-- What a successful pre-affine phase can do to an image: the voxel data
is untouched, and the affine is either untouched or replaced by the
left-product of the stored correction matrix with the old affine. -/
theorem preAffineApply_ok_spec (t : Resample) (image image₁ : Image)
    (h : preAffineApply t image = .ok image₁) :
    image₁.data = image.data ∧
      (image₁.affine = image.affine ∨
        ∃ name, t.pre_affine_name = some name ∧ image.hasKey name = true ∧
          image₁.affine =
            ((image.keys.lookup name).getD (.other "")).matrix *
              image.affine) := by
  unfold preAffineApply at h
  rcases hpre : t.pre_affine_name with _ | name
  · simp only [hpre, Except.ok.injEq] at h
    subst h
    exact ⟨rfl, Or.inl rfl⟩
  · simp only [hpre] at h
    by_cases hk : image.hasKey name = true
    · rw [if_pos hk] at h
      rcases hca : check_affine name image with e | u
      · simp [hca] at h
      · simp only [hca, Except.ok.injEq] at h
        subst h
        exact ⟨rfl, Or.inr ⟨name, rfl, hk, rfl⟩⟩
    · rw [if_neg hk] at h
      simp only [Except.ok.injEq] at h
      subst h
      exact ⟨rfl, Or.inl rfl⟩

/-- C7: interpolation dispatch per processed image — a categorical image
under `scalars_only` is skipped with the whole subject untouched, a
categorical image otherwise is resampled with the `"nearest"` kernel
whatever interpolation was requested, and a scalar image is resampled
with the requested interpolation. -/
theorem c7_interpolation_dispatch :
    ∀ (ext : Externals) (t : Resample) (subject : Subject) (i : ℕ)
      (key : String) (image : Image),
      subject[i]? = some (key, image) →
      isTheReference t.reference_image image = false →
      ((image.isScalar = false → t.scalars_only = true →
          applyStep ext t subject i = .ok subject) ∧
        (image.isScalar = false → t.scalars_only = false →
          applyStep ext t subject i =
            resampleWith ext t subject i key image "nearest") ∧
        (image.isScalar = true →
          applyStep ext t subject i =
            resampleWith ext t subject i key image
              t.image_interpolation)) := by
  intro ext t subject i key image hi href
  unfold applyStep
  rw [hi]
  refine ⟨?_, ?_, ?_⟩
  · intro hsc hso
    simp [href, hsc, hso]
  · intro hsc hso
    simp [href, hsc, hso]
  · intro hsc
    simp [href, hsc]

/-- C7 witness: the categorical image of `subj7` is skipped untouched
under `scalars_only`. -/
theorem c7_interpolation_dispatch_witness :
    applyStep ext0 t7cfg subj7 0 = .ok subj7 :=
  (c7_interpolation_dispatch ext0 t7cfg subj7 0 "a" img7 rfl rfl).1 rfl rfl

/-- C8: when a pre-affine key is configured but absent from every image
of the subject, `apply_transform` fails with the key-not-found error
before any image is touched — the error state is the unchanged input
subject. -/
theorem c8_affine_key_fail_fast :
    ∀ (ext : Externals) (t : Resample) (name : PyKey) (subject : Subject),
      t.pre_affine_name = some name →
      (∀ p ∈ subject, p.2.hasKey name = false) →
      apply_transform ext t subject =
        .error (.affineKeyNotFound name, subject) := by
  intro ext t name subject hpre habs
  unfold apply_transform
  rw [hpre]
  unfold check_affine_key_presence
  have hany : subject.any (fun p => p.2.hasKey name) = false :=
    List.any_eq_false.mpr (fun p hp => by simp [habs p hp])
  simp [hany]

/-- C8 witness: the fail-fast error on a concrete keyless subject. -/
theorem c8_affine_key_fail_fast_witness :
    apply_transform ext0 t8cfg subj8 =
      .error (.affineKeyNotFound (.pstr "aff"), subj8) :=
  c8_affine_key_fail_fast ext0 t8cfg (.pstr "aff") subj8 rfl (by decide)

/-- C9 amended: a non-string pre-affine key raises the type error only
when a processed image actually contains that key — the error then occurs
before the image is mutated (the error state is the unchanged subject). -/
theorem c9_nonstring_key :
    ∀ (ext : Externals) (t : Resample) (subject : Subject) (i : ℕ)
      (key : String) (image : Image) (n : ℤ),
      t.pre_affine_name = some (.pint n) →
      subject[i]? = some (key, image) →
      image.hasKey (.pint n) = true →
      isTheReference t.reference_image image = false →
      (image.isScalar = true ∨ t.scalars_only = false) →
      applyStep ext t subject i =
        .error (.affineNameNotString "int", subject) := by
  intro ext t subject i key image n hpre hi hk href hsc
  unfold applyStep
  rw [hi]
  have hskip : (!image.isScalar && t.scalars_only) = false := by
    rcases hsc with h | h <;> simp [h]
  unfold resampleWith preAffineApply
  rw [hpre]
  simp [href, hskip, hk, check_affine, PyKey.isStr, PyKey.tyName]

/-- C9 witness: the type error fires on a subject whose image carries the
non-string key `5`. -/
theorem c9_nonstring_key_witness :
    applyStep ext0 t9cfg subj9k 0 =
      .error (.affineNameNotString "int", subj9k) :=
  c9_nonstring_key ext0 t9cfg subj9k 0 "a" img9k 5 rfl rfl rfl rfl
    (Or.inl rfl)

/-- C9 counterexample: with the non-string key `5` configured and a
subject with no such key anywhere, `apply_transform` raises the
key-not-found `ValueError` of the bundle-level presence check, not the
`InvalidAffineKey` type error the claim promises for every subject. -/
theorem c9_counterexample :
    apply_transform ext0 t9cfg subj9 =
      .error (.affineKeyNotFound (.pint 5), subj9) ∧
    ResampleError.affineKeyNotFound (.pint 5) ≠
      ResampleError.affineNameNotString "int" :=
  ⟨rfl, by decide⟩

/-- C1 amended: if the step processing one image raises, the subject at
raise time is either untouched, or touched only at that image, whose
voxel data is intact and whose affine is intact unless a configured
pre-affine correction present in that image had already been
left-multiplied in (the failure does not undo it). -/
theorem c1_step_mutation :
    ∀ (ext : Externals) (t : Resample) (subject : Subject) (i : ℕ)
      (key : String) (image : Image) (e : ResampleError) (s' : Subject),
      subject[i]? = some (key, image) →
      applyStep ext t subject i = .error (e, s') →
      s' = subject ∨
        ∃ image₁,
          s' = subject.set i (key, image₁) ∧
          image₁.data = image.data ∧
          (image₁.affine = image.affine ∨
            ∃ name, t.pre_affine_name = some name ∧
              image.hasKey name = true ∧
              image₁.affine =
                ((image.keys.lookup name).getD (.other "")).matrix *
                  image.affine) := by
  intro ext t subject i key image e s' hi herr
  unfold applyStep at herr
  simp only [hi] at herr
  by_cases h1 : isTheReference t.reference_image image = true
  · rw [if_pos h1] at herr
    exact Except.noConfusion herr
  · rw [if_neg h1] at herr
    by_cases h2 : (!image.isScalar && t.scalars_only) = true
    · rw [if_pos h2] at herr
      exact Except.noConfusion herr
    · rw [if_neg h2] at herr
      revert herr
      generalize (if !image.isScalar = true then "nearest"
        else t.image_interpolation) = interp
      intro herr
      unfold resampleWith at herr
      rcases hpa : preAffineApply t image with e₁ | image₁
      · rw [hpa] at herr
        simp only [Except.error.injEq, Prod.mk.injEq] at herr
        exact Or.inl herr.2.symm
      · have hspec := preAffineApply_ok_spec t image image₁ hpa
        rw [hpa] at herr
        simp only at herr
        rcases hrr : resolveReference ext t (subject.set i (key, image₁))
            (ext.asSitk image₁ true) with e₂ | refSitk
        · simp only [hrr, Except.error.injEq, Prod.mk.injEq] at herr
          exact Or.inr ⟨image₁, herr.2.symm, hspec.1, hspec.2⟩
        · simp only [hrr] at herr
          by_cases hdim : refSitk.dimension ≠ (ext.asSitk image₁ true).dimension
          · rw [if_pos hdim] at herr
            simp only [Except.error.injEq, Prod.mk.injEq] at herr
            exact Or.inr ⟨image₁, herr.2.symm, hspec.1, hspec.2⟩
          · rw [if_neg hdim] at herr
            exact Except.noConfusion herr

/-- C1 witness: the amended statement applied to a failing concrete
step — the pre-affine correction was applied and then the named
reference lookup failed. -/
theorem c1_step_mutation_witness :
    ([("a", { imgA with affine := (0 : Mat4) * imgA.affine })] : Subject)
        = subjA ∨
      ∃ image₁,
        ([("a", { imgA with affine := (0 : Mat4) * imgA.affine })] :
            Subject) = subjA.set 0 ("a", image₁) ∧
        image₁.data = imgA.data ∧
        (image₁.affine = imgA.affine ∨
          ∃ name, t1cfg.pre_affine_name = some name ∧
            imgA.hasKey name = true ∧
            image₁.affine =
              ((imgA.keys.lookup name).getD (.other "")).matrix *
                imgA.affine) :=
  c1_step_mutation ext0 t1cfg subjA 0 "a" imgA (.referenceNotFound "missing")
    [("a", { imgA with affine := (0 : Mat4) * imgA.affine })] rfl rfl

/-- C1 counterexample: the reference lookup fails after the pre-affine
correction has mutated the image's affine, so the image is not unchanged
at the time `apply_transform` raises — there is a partial-failure state
within a single image's resample step. -/
theorem c1_counterexample :
    apply_transform ext0 t1cfg subjA =
      .error (.referenceNotFound "missing",
        [("a", { imgA with affine := (0 : Mat4) * imgA.affine })]) ∧
    (0 : Mat4) * imgA.affine ≠ imgA.affine := by
  constructor
  · rfl
  · show (0 : Mat4) * 1 ≠ 1
    rw [mul_one]
    exact mat4_zero_ne_one

/-- The loop step leaves the image that is (by object identity) the
in-memory reference untouched: `image is self.reference_image` skips. -/
theorem applyStep_skip_ref :
    ∀ (ext : Externals) (t : Resample) (subject : Subject) (i : ℕ)
      (key : String) (image : Image),
      subject[i]? = some (key, image) →
      isTheReference t.reference_image image = true →
      applyStep ext t subject i = .ok subject := by
  intro ext t subject i key image hi href
  unfold applyStep
  simp [hi, href]

/-- One loop step can change the subject only at the index it processes:
every other index reads back unchanged, whether the step returns or
raises. -/
theorem applyStep_preserves_other :
    ∀ (ext : Externals) (t : Resample) (subject : Subject) (i j : ℕ),
      j ≠ i →
      (exceptState (applyStep ext t subject i))[j]? = subject[j]? := by
  intro ext t subject i j hne
  have hset : ∀ (p : String × Image), (subject.set i p)[j]? = subject[j]? :=
    fun p => List.getElem?_set_ne (Ne.symm hne)
  unfold applyStep
  rcases hsi : subject[i]? with _ | ⟨key, image⟩
  · rfl
  · by_cases h1 : isTheReference t.reference_image image = true
    · simp [h1, exceptState]
    · by_cases h2 : (!image.isScalar && t.scalars_only) = true
      · simp [h1, h2, exceptState]
      · simp only [h1, h2, Bool.false_eq_true, if_false]
        unfold resampleWith
        rcases hpa : preAffineApply t image with e₁ | image₁
        · simp [exceptState]
        · simp only [hpa]
          rcases hrr : resolveReference ext t (subject.set i (key, image₁))
              (ext.asSitk image₁ true) with e₂ | refSitk
          · simp only [hrr, exceptState]
            exact hset _
          · simp only [hrr]
            by_cases hdim :
                refSitk.dimension ≠ (ext.asSitk image₁ true).dimension
            · rw [if_pos hdim]
              simp only [exceptState]
              exact hset _
            · rw [if_neg hdim]
              simp only [exceptState]
              rw [List.getElem?_set_ne (Ne.symm hne)]
              exact hset _

/-- One loop step preserves, at its stored position, every image whose
object identity matches an in-memory reference target. -/
theorem applyStep_preserves_pid :
    ∀ (ext : Externals) (t : Resample) (ref : Image) (subject : Subject)
      (i j : ℕ) (p : String × Image),
      t.reference_image = .image ref →
      subject[j]? = some p → p.2.pid = ref.pid →
      (exceptState (applyStep ext t subject i))[j]? = some p := by
  intro ext t ref subject i j p href hj hpid
  by_cases hij : j = i
  · subst hij
    have hskip : isTheReference t.reference_image p.2 = true := by
      rw [href]
      simp [isTheReference, hpid]
    rw [applyStep_skip_ref ext t subject j p.1 p.2 (by rw [hj]) hskip]
    exact hj
  · rw [applyStep_preserves_other ext t subject i j hij]
    exact hj

/-- The whole loop preserves, at their stored positions, all images whose
object identity matches an in-memory reference target. -/
theorem applyLoop_preserves_pid :
    ∀ (fuel : ℕ) (ext : Externals) (t : Resample) (ref : Image)
      (subject : Subject) (istart j : ℕ) (p : String × Image),
      t.reference_image = .image ref →
      subject[j]? = some p → p.2.pid = ref.pid →
      (exceptState (applyLoop ext t fuel subject istart))[j]? = some p := by
  intro fuel
  induction fuel with
  | zero =>
      intro ext t ref subject istart j p href hj hpid
      simpa [applyLoop, exceptState] using hj
  | succ n ih =>
      intro ext t ref subject istart j p href hj hpid
      have hstep := applyStep_preserves_pid ext t ref subject istart j p
        href hj hpid
      unfold applyLoop
      rcases hs : applyStep ext t subject istart with e | s₁
      · rw [hs] at hstep
        simpa [exceptState] using hstep
      · rw [hs] at hstep
        simp only [exceptState] at hstep
        simp only [hs]
        exact ih ext t ref s₁ (istart + 1) j p href hstep hpid

/-- C2 amended: when the target is an in-memory `Image`, every image of
the subject that is that object (object identity) is left unchanged by
`apply_transform`, whether the transform returns or raises.  (A target
given as a named sibling key is a `str`, never identical to an `Image`,
so the named reference is not skipped — see the counterexample.) -/
theorem c2_reference_never_resampled :
    ∀ (ext : Externals) (t : Resample) (ref : Image) (subject : Subject)
      (j : ℕ) (p : String × Image),
      t.reference_image = .image ref →
      subject[j]? = some p → p.2.pid = ref.pid →
      (exceptState (apply_transform ext t subject))[j]? = some p := by
  intro ext t ref subject j p href hj hpid
  unfold apply_transform
  rcases hpre : t.pre_affine_name with _ | name
  · exact applyLoop_preserves_pid _ ext t ref subject 0 j p href hj hpid
  · rcases hchk : check_affine_key_presence name subject with e | u
    · simpa [hchk, exceptState] using hj
    · simp only [hchk]
      exact applyLoop_preserves_pid _ ext t ref subject 0 j p href hj hpid

/-- C2 witness: the in-memory reference inside the subject is untouched
by a concrete run. -/
theorem c2_reference_never_resampled_witness :
    (exceptState (apply_transform ext0 tRcfg subjR))[0]? =
      some ("r", imgR) :=
  c2_reference_never_resampled ext0 tRcfg imgR subjR 0 ("r", imgR)
    rfl rfl rfl

/-- C2 counterexample: with a named sibling target `"t1"`, the image
stored under `"t1"` is itself resampled — its voxel data is overwritten
(999 ≠ 0), so the resolved reference is not skipped and not unchanged. -/
theorem c2_counterexample :
    apply_transform ext0 t2cfg subjT =
      .ok [("t1", { imgT1 with data := 999, affine := 1 }),
        ("b", { imgB with data := 999, affine := 1 })] ∧
    (999 : ℕ) ≠ imgT1.data :=
  ⟨rfl, by decide⟩

/-- C3: a plain string that is not a path to an existing file is kept as
a named-sibling lookup key and resolved in the subject at apply time
(`ReferenceNotFound` when absent) — but a non-file `pathlib.Path` target
is stored as the `Path` object, matches no branch of `apply_transform`,
and crashes with `UnboundLocalError` instead of being treated as a key. -/
theorem c3_path_target_evaluation :
    (∀ (load : String → Image) (s : String),
      parse_target load (.strT s false) = .ok (.str s, none) ∧
      parse_target load (.pathT s false) = .ok (.pathRef s, none)) ∧
    Resample.init load0 (.pathT "t1" false) "linear" none false =
      .ok t3pcfg ∧
    apply_transform ext0 t3pcfg subjT =
      .error (.unboundLocalReference, subjT) ∧
    Resample.init load0 (.strT "t1" false) "linear" none false =
      .ok t2cfg ∧
    apply_transform ext0 t2cfg subjNoT =
      .error (.referenceNotFound "t1", subjNoT) :=
  ⟨fun _ _ => ⟨rfl, rfl⟩, rfl, rfl, rfl, rfl⟩

/-- C4 witness: the per-axis formula applied to the concrete wrapping
geometry. -/
theorem c4_uint16_wrap_witness :
    (get_reference_image c4image [1, 1, 1]).size[0]? =
      some ((Int.ceil ((70000 : ℚ) * 1 / 1)).toNat % 2 ^ 16) :=
  c4_uint16_wrap.1 c4image [1, 1, 1] 0 70000 1 1 rfl rfl rfl (by decide)

/-- C5 witness: the singleton rule applied to the pseudo-2D geometry. -/
theorem c5_singleton_witness :
    (get_reference_image c5image [2, 2, 2]).size[2]? = some 1 :=
  c5_singleton.1 c5image [2, 2, 2] 2 1 2 rfl rfl rfl

/-- C6 witness: the spec's four concrete spacing examples. -/
theorem c6_parse_spacing_witness :
    parse_spacing (.num 5) = .ok [5, 5, 5] ∧
    parse_spacing (.tup [1, 2, 3]) = .ok [1, 2, 3] ∧
    parse_spacing (.num (-1)) = .error .spacingNotPositive ∧
    parse_spacing (.tup [1, 0, 1]) = .error .spacingNotPositive :=
  ⟨c6_parse_spacing.1 5 (by norm_num),
    c6_parse_spacing.2.2.1 [1, 2, 3] rfl
      (by intro x hx; fin_cases hx <;> norm_num),
    c6_parse_spacing.2.1 (-1) (by norm_num),
    c6_parse_spacing.2.2.2.1 [1, 0, 1] rfl ⟨0, by simp, le_refl 0⟩⟩
